import Mathlib

/-!
Verification of the `spiral` trace-instrumentation pipeline.

This file gives a shallow embedding, in Lean 4, of the parts of the
repository that the specification's claims are about:

* `src/parser/normalize.py` — the trace decoder (`stdin_to_json`), the
  per-record constructors (`create_type_*`), and the seed generator
  (`generate_seed`);
* `src/parser/tracer/languages/c.py` and `python.py` — the insertion
  plan, `_build_output`, `_make_trace`, `_collect_reads`,
  `_visit_assignment_expression` and `_visit_call_expression` /
  `_visit_call` of the instrumenters;
* `src/parser/run.py` — the result documents built by `deal` and
  `_make_error`;
* `src/app/routes.py` — the batch loop of `process_code_files`.

Python dictionaries are embedded as insertion-ordered association
lists, exceptions as `Option` results, and Python's arbitrary-precision
integers as `Nat`.
-/

namespace Spiral

/-! ## Values appearing in decoded trace records

A decoded record in `normalize.py` is a Python dict whose values are
strings from the split input line, a list of such strings (the `args`
of CALL or UNKNOWN), or the integer `id` added by `stdin_to_json`. -/

inductive FieldVal where
  | s (v : String)
  | n (v : Nat)
  | list (vs : List String)
deriving DecidableEq, Repr

/-- A decoded trace record: a Python dict in insertion order. -/
abbrev Record := List (String × FieldVal)

/-! ## Per-record constructors (`src/parser/normalize.py` lines 8–186)

Each `create_type_*` function receives the fields of one line after the
record tag (`switch[trace_type](*fields[1:])`).  A Python `TypeError`
or `IndexError` from an arity mismatch is embedded as `none`. -/

/-- Embeds `create_type_ASSIGN` (normalize.py lines 8–18). -/
def create_type_ASSIGN : List String → Option Record
  | [subject, value, address, line_number, stack_depth] =>
    some [("type", .s "ASSIGN"), ("subject", .s subject), ("value", .s value),
          ("address", .s address), ("line_number", .s line_number),
          ("stack_depth", .s stack_depth)]
  | _ => none

/-- Embeds `create_type_BRANCH` (normalize.py lines 21–30). -/
def create_type_BRANCH : List String → Option Record
  | [subtype, condition, line_number, stack_depth] =>
    some [("type", .s "BRANCH"), ("subtype", .s subtype), ("condition", .s condition),
          ("line_number", .s line_number), ("stack_depth", .s stack_depth)]
  | _ => none

/-- Embeds `create_type_CALL` (normalize.py lines 33–41): variadic,
`fields[0]` is the subject, `fields[-1]` the stack depth, the middle
fields are the `args`; an empty argument tuple raises (`none`). -/
def create_type_CALL : List String → Option Record
  | [] => none
  | f :: rest =>
    let stack_depth := rest.getLastD f
    let params := rest.dropLast
    some ([("type", .s "CALL"), ("subject", .s f), ("stack_depth", .s stack_depth)]
      ++ (if params ≠ [] then [("args", FieldVal.list params)] else []))

/-- Embeds `create_type_CONDITION` (normalize.py lines 44–53). -/
def create_type_CONDITION : List String → Option Record
  | [subject, condition_result, line_number, stack_depth] =>
    some [("type", .s "CONDITION"), ("subject", .s subject),
          ("condition_result", .s condition_result),
          ("line_number", .s line_number), ("stack_depth", .s stack_depth)]
  | _ => none

/-- Embeds `create_type_DECL` (normalize.py lines 56–66). -/
def create_type_DECL : List String → Option Record
  | [subject, value, address, line_number, stack_depth] =>
    some [("type", .s "DECL"), ("subject", .s subject), ("value", .s value),
          ("address", .s address), ("line_number", .s line_number),
          ("stack_depth", .s stack_depth)]
  | _ => none

/-- Embeds `create_type_LOOP` (normalize.py lines 69–86); `condition`
and `condition_result` are included only when non-empty (Python string
truthiness). -/
def create_type_LOOP : List String → Option Record
  | [subtype, condition, condition_result, line_number, stack_depth] =>
    some ([("type", .s "LOOP"), ("subtype", .s subtype),
           ("line_number", .s line_number), ("stack_depth", .s stack_depth)]
      ++ (if condition ≠ "" then [("condition", FieldVal.s condition)] else [])
      ++ (if condition_result ≠ "" then [("condition_result", FieldVal.s condition_result)] else []))
  | _ => none

/-- Embeds `create_type_READ` (normalize.py lines 89–99). -/
def create_type_READ : List String → Option Record
  | [subject, format_spec, address, line_number, stack_depth] =>
    some [("type", .s "READ"), ("subject", .s subject), ("format_spec", .s format_spec),
          ("address", .s address), ("line_number", .s line_number),
          ("stack_depth", .s stack_depth)]
  | _ => none

/-- Embeds `create_type_PARAM` (normalize.py lines 102–108). -/
def create_type_PARAM : List String → Option Record
  | [subject, value, line_number] =>
    some [("type", .s "PARAM"), ("subject", .s subject), ("value", .s value),
          ("line_number", .s line_number)]
  | _ => none

/-- Embeds the body of `create_type_RETURN` after the arity is known. -/
def mkRETURN (subtype value address line_number stack_depth format_spec : String) : Record :=
  [("type", .s "RETURN"), ("subtype", .s subtype), ("value", .s value),
   ("line_number", .s line_number), ("stack_depth", .s stack_depth)]
  ++ (if address ≠ "" ∧ address ≠ "0" then [("address", FieldVal.s address)] else [])
  ++ (if format_spec ≠ "" then [("format_spec", FieldVal.s format_spec)] else [])

/-- Embeds `create_type_RETURN` (normalize.py lines 111–130);
`format_spec` defaults to the empty string. -/
def create_type_RETURN : List String → Option Record
  | [subtype, value, address, line_number, stack_depth] =>
    some (mkRETURN subtype value address line_number stack_depth "")
  | [subtype, value, address, line_number, stack_depth, format_spec] =>
    some (mkRETURN subtype value address line_number stack_depth format_spec)
  | _ => none

/-- Embeds `create_type_SWITCH` (normalize.py lines 133–142). -/
def create_type_SWITCH : List String → Option Record
  | [subject, value, line_number, stack_depth] =>
    some [("type", .s "SWITCH"), ("subject", .s subject), ("value", .s value),
          ("line_number", .s line_number), ("stack_depth", .s stack_depth)]
  | _ => none

/-- Embeds `create_type_CASE` (normalize.py lines 145–151). -/
def create_type_CASE : List String → Option Record
  | [label, line_number, stack_depth] =>
    some [("type", .s "CASE"), ("label", .s label),
          ("line_number", .s line_number), ("stack_depth", .s stack_depth)]
  | _ => none

/-- Embeds `create_type_UPDATE` (normalize.py lines 154–170). -/
def create_type_UPDATE : List String → Option Record
  | [subject, operator, value, address, line_number, stack_depth] =>
    some [("type", .s "UPDATE"), ("subject", .s subject), ("operator", .s operator),
          ("value", .s value), ("address", .s address),
          ("line_number", .s line_number), ("stack_depth", .s stack_depth)]
  | _ => none

/-- Embeds `create_type_TERNARY` (normalize.py lines 173–182). -/
def create_type_TERNARY : List String → Option Record
  | [subject, condition_result, line_number, stack_depth] =>
    some [("type", .s "TERNARY"), ("subject", .s subject),
          ("condition_result", .s condition_result),
          ("line_number", .s line_number), ("stack_depth", .s stack_depth)]
  | _ => none

/-- Embeds `create_type_UNKNOWN` (normalize.py lines 185–186): takes all
raw fields of the line, including the tag, and never raises. -/
def create_type_UNKNOWN (args : List String) : Record :=
  [("type", .s "UNKNOWN"), ("args", FieldVal.list args)]

/-- Embeds the `switch` dispatch table of `stdin_to_json`
(normalize.py lines 221–235). -/
def switchLookup : String → Option (List String → Option Record)
  | "ASSIGN" => some create_type_ASSIGN
  | "BRANCH" => some create_type_BRANCH
  | "CALL" => some create_type_CALL
  | "CASE" => some create_type_CASE
  | "CONDITION" => some create_type_CONDITION
  | "DECL" => some create_type_DECL
  | "LOOP" => some create_type_LOOP
  | "PARAM" => some create_type_PARAM
  | "READ" => some create_type_READ
  | "RETURN" => some create_type_RETURN
  | "SWITCH" => some create_type_SWITCH
  | "TERNARY" => some create_type_TERNARY
  | "UPDATE" => some create_type_UPDATE
  | _ => none

/-! ## The decoder state and loop (`stdin_to_json`, normalize.py lines 215–270) -/

/-- Python dict assignment `d[k] = v`: overwrite in place if the key is
present, append otherwise (insertion order preserved). -/
def dictInsert : List (String × String) → String → String → List (String × String)
  | [], k, v => [(k, v)]
  | (k', v') :: rest, k, v =>
    if k' = k then (k', v) :: rest else (k', v') :: dictInsert rest k v

/-- The mutable state of the decoding loop: `metadata`, `traces` and
`trace_id` of `stdin_to_json`. -/
structure DecodeState where
  metadata : List (String × String)
  traces : List Record
  trace_id : Nat
deriving DecidableEq, Repr

/-- The initial decoder state (normalize.py lines 217–219). -/
def initState : DecodeState := ⟨[], [], 0⟩

/-- One iteration of the `for line in lines` loop of `stdin_to_json`
(normalize.py lines 237–265), acting on the null-split fields of a
line.  A constructor raising is embedded as `none` and leaves the
state unchanged (the Python code prints a report and continues). -/
def decodeStep (s : DecodeState) (fields : List String) : DecodeState :=
  let trace_type := fields.headD ""
  if trace_type = "META" then
    if 3 ≤ fields.length then
      { s with metadata := dictInsert s.metadata (fields.getD 1 "") (fields.getD 2 "") }
    else s
  else
    match switchLookup trace_type with
    | some ctor =>
      match ctor fields.tail with
      | some r =>
        { s with traces := s.traces ++ [r ++ [("id", FieldVal.n s.trace_id)]],
                 trace_id := s.trace_id + 1 }
      | none => s
    | none =>
      { s with traces := s.traces ++ [create_type_UNKNOWN fields ++ [("id", FieldVal.n s.trace_id)]],
               trace_id := s.trace_id + 1 }

/-- The decoding loop over all (already field-split) lines. -/
def decodeLines (s : DecodeState) (lines : List (List String)) : DecodeState :=
  lines.foldl decodeStep s

/-- The field delimiter: a null character (`line.split("\0")`). -/
def nullStr : String := String.singleton (Char.ofNat 0)

/-- Embeds `stdin_to_json` (normalize.py lines 215–270): strip the
input, split into lines, split each line at null bytes, and run the
decoding loop.  (`String.trim` strips the same characters as Python's
`str.strip` on the whitespace forms that can occur here.) -/
def stdin_to_json (stdin_data : String) : DecodeState :=
  decodeLines initState ((stdin_data.trim.splitOn "\n").map (fun l => l.splitOn nullStr))

/-- The `id` field that `stdin_to_json` appends to a record: it is
always the last entry of the dict. -/
def recId (r : Record) : Option Nat :=
  match r.getLast? with
  | some (k, FieldVal.n i) => if k = "id" then some i else none
  | _ => none

/-! ## The seed generator (`generate_seed`, normalize.py lines 189–212)

`generate_seed` hashes the sorted-key JSON dump of the metadata with
SHA-256 and then post-processes the digest, interpreted as a
non-negative integer, through decimal-string manipulations.  SHA-256
itself is an external library (`hashlib`); the embedding therefore
takes the digest integer `hashInt` as the input and embeds the
post-processing faithfully.  The single digit produced by
`random.choice("0123456789")` after `random.seed(chunks[0])` — a
deterministic function of the first chunk — is likewise taken as the
input `padDigit` (a value in `0..9`). -/

/-- The decimal representation of `n` as a most-significant-first digit
list, matching Python's `str(n)` (so `0` is `[0]`, not `[]`). -/
def decRepr (n : Nat) : List Nat :=
  if n = 0 then [0] else (Nat.digits 10 n).reverse

/-- `len(str(n))`: the number of decimal digits of `n`. -/
def seedLen (n : Nat) : Nat := (decRepr n).length

/-- `int(ds)` for a most-significant-first digit list `ds`, i.e. the
value Python's `int` gives the corresponding digit string. -/
def chunkVal (ds : List Nat) : Nat := ds.foldl (fun a d => 10 * a + d) 0

/-- The chunking loop `for i in range(0, len(str(hash_int)), 20)`
(normalize.py lines 197–199): successive 20-digit slices of the digit
string, the last possibly shorter. -/
def pyChunks (ds : List Nat) : List (List Nat) :=
  (List.range ((ds.length + 19) / 20)).map (fun i => (ds.drop (20 * i)).take 20)

/-- The XOR fold `result ^= int(c)` over the chunks
(normalize.py lines 201–203). -/
def chunkXor (hashInt : Nat) : Nat :=
  ((pyChunks (decRepr hashInt)).map chunkVal).foldl Nat.xor 0

/-- `str.ljust(width, fillDigit)` on a digit list: pad on the right up
to `width` digits. -/
def ljustDigits (ds : List Nat) (width : Nat) (fill : Nat) : List Nat :=
  ds ++ List.replicate (width - ds.length) fill

/-- Embeds the post-processing of `generate_seed`
(normalize.py lines 197–212) on the digest integer `hashInt`:
XOR-fold the 20-digit decimal chunks, truncate to the first 20 digits
if longer than 20, and right-pad to 19 digits with the pseudo-random
digit `padDigit` if shorter than 19. -/
def generate_seed (hashInt : Nat) (padDigit : Nat) : Nat :=
  let r0 := chunkXor hashInt
  let r1 := if 20 < seedLen r0 then chunkVal ((decRepr r0).take 20) else r0
  if seedLen r1 < 19 then chunkVal (ljustDigits (decRepr r1) 19 padDigit) else r1

/-! ## The insertion plan of the instrumenters

Both `CInstrumenter` and `PythonInstrumenter` keep two dicts
`insertions` and `pre_insertions : dict[int, list[str]]`, filled by
`_add_after` / `_add_before` with `setdefault(line, []).append(code)`,
and rebuild the output in `_build_output` by iterating the original
source lines.  The dicts are embedded as insertion-ordered association
lists with the same append semantics. -/

/-- A `dict[int, list[str]]` in insertion order. -/
abbrev LineMap := List (Nat × List String)

/-- `d.setdefault(i, []).append(code)`. -/
def lineMapAppend (m : LineMap) (i : Nat) (code : String) : LineMap :=
  match m with
  | [] => [(i, [code])]
  | (k, v) :: rest =>
    if k = i then (k, v ++ [code]) :: rest else (k, v) :: lineMapAppend rest i code

/-- Dict lookup with default `[]`; `i in d` followed by `d[i]` in
`_build_output` is equivalent to this because values are never empty. -/
def lineMapGet (m : LineMap) (i : Nat) : List String :=
  match m with
  | [] => []
  | (k, v) :: rest => if k = i then v else lineMapGet rest i

/-- The two insertion dicts of an instrumenter. -/
structure Plan where
  insertions : LineMap
  pre_insertions : LineMap
deriving DecidableEq, Repr

/-- The empty plan (instrumenter construction). -/
def Plan.empty : Plan := ⟨[], []⟩

/-- `_add_after` (c.py lines 306–307, python.py lines 229–230). -/
def addAfter (p : Plan) (line_idx : Nat) (code : String) : Plan :=
  { p with insertions := lineMapAppend p.insertions line_idx code }

/-- `_add_before` (c.py lines 309–310, python.py lines 232–233). -/
def addBefore (p : Plan) (line_idx : Nat) (code : String) : Plan :=
  { p with pre_insertions := lineMapAppend p.pre_insertions line_idx code }

/-- Embeds `_build_output` (c.py lines 333–341, python.py lines
260–268): start from the header line, then for each original line in
order emit the scheduled `before`-fragments, the line itself, and the
scheduled `after`-fragments.  `header` is `"int __stack_depth = 0;"`
for C and `"__tracer_depth = 0"` for Python. -/
def build_output (header : String) (lines : List String) (p : Plan) : List String :=
  header :: lines.enum.flatMap
    (fun il => lineMapGet p.pre_insertions il.1 ++ [il.2] ++ lineMapGet p.insertions il.1)

/-- A scheduling action performed by a visitor during the traversal. -/
inductive PlanEvent where
  | before (line : Nat) (code : String)
  | after (line : Nat) (code : String)
deriving DecidableEq, Repr

/-- Replay a traversal's scheduling actions onto a plan. -/
def applyEvents (p : Plan) (evs : List PlanEvent) : Plan :=
  evs.foldl (fun q e => match e with
    | .before i c => addBefore q i c
    | .after i c => addAfter q i c) p

/-- The fragments scheduled before line `i`, in scheduling order. -/
def scheduledBefore (evs : List PlanEvent) (i : Nat) : List String :=
  evs.filterMap (fun e => match e with
    | .before j c => if j = i then some c else none
    | .after _ _ => none)

/-- The fragments scheduled after line `i`, in scheduling order. -/
def scheduledAfter (evs : List PlanEvent) (i : Nat) : List String :=
  evs.filterMap (fun e => match e with
    | .before _ _ => none
    | .after j c => if j = i then some c else none)

/-! ## Trace-statement synthesis (`_make_trace`) -/

/-- One part handed to `_make_trace`: either a string literal or a
`(format, expression)` pair for C, respectively a literal or a runtime
expression for Python. -/
inductive TracePart where
  | lit (s : String)
  | expr (fmt : String) (arg : String)
deriving DecidableEq, Repr

/-- An apostrophe, used inside generated source text. -/
def sq : String := String.singleton (Char.ofNat 39)

/-- A double quote, used inside generated source text. -/
def dq : String := String.singleton (Char.ofNat 34)

/-- Embeds `CInstrumenter._make_trace` (c.py lines 312–331): a chain of
`printf`/`putchar(0)` statements ending in `putchar('\n')`, joined by
`"; "` and indented four spaces. -/
def c_make_trace (parts : List TracePart) : String :=
  let fmtArgs := parts.map (fun part => match part with
    | .lit s => ("%s", dq ++ s ++ dq)
    | .expr fmt arg => (fmt, arg))
  let printfs := fmtArgs.map (fun fa => "printf(" ++ dq ++ fa.1 ++ dq ++ ", " ++ fa.2 ++ ")")
  let statements := printfs.intersperse "putchar(0)" ++ ["putchar(" ++ sq ++ "\\n" ++ sq ++ ")"]
  "    " ++ String.intercalate "; " statements ++ ";"

/-- Python's `repr` of a string literal, for the literals the
instrumenter passes (tag names, identifiers, line numbers — no quotes
or escapes): a single-quoted string. -/
def pyRepr (s : String) : String := sq ++ s ++ sq

/-- Embeds `PythonInstrumenter._make_trace` (python.py lines 235–251):
a `print(..., sep='\0')` call at the given indent. -/
def py_make_trace (parts : List TracePart) (indent : Nat) : String :=
  let args := parts.map (fun part => match part with
    | .lit s => pyRepr s
    | .expr _ arg => arg)
  String.mk (List.replicate indent ' ')
    ++ "print(" ++ String.intercalate ", " args ++ ", sep=" ++ sq ++ "\\0" ++ sq ++ ")"

/-! ## The C backend (`src/parser/tracer/languages/c.py`) -/

/-- The reserved words of the C backend (c.py lines 12–31). -/
def CKEYWORDS : List String :=
  ["printf", "main", "return", "if", "while", "for", "else", "switch", "case",
   "break", "continue", "sizeof", "typedef", "struct", "enum", "union", "goto", "do"]

/-- Python's substring test `needle in hay`. -/
def strContains (hay needle : String) : Bool :=
  (List.range (hay.length + 1)).any (fun i => needle.data.isPrefixOf (hay.data.drop i))

/-- The format-specifier table `TYPE_FMT` (c.py lines 33–40), in dict
insertion order. -/
def TYPE_FMT : List (String × String) :=
  [("int", "%d"), ("float", "%f"), ("double", "%lf"), ("char", "%c"),
   ("char *", "%s"), ("long", "%ld")]

/-- Embeds `_type_fmt` (c.py lines 43–56): pointer/array types print as
`%s` (char) or `%p`, otherwise the first matching substring of the
table wins, defaulting to `%d`. -/
def type_fmt (type_name : String) : String :=
  if strContains type_name "*" ∨ strContains type_name "[" then
    if strContains type_name "char" then "%s" else "%p"
  else
    match TYPE_FMT.find? (fun kv => strContains type_name kv.1) with
    | some kv => kv.2
    | none => "%d"

/-- The tree-sitter node shapes that `_collect_reads` and the
declaration/assignment visitors inspect on the right-hand side of a
declaration or assignment.  Each constructor mirrors one tree-sitter
node type; `call`'s arguments sit inside an `argument_list` child, as
in the concrete syntax tree. -/
inductive CNode where
  | identifier (name : String)
  | number_literal (text : String)
  | binary_expression (left : CNode) (right : CNode)
  | call_expression (function : CNode) (arguments : CNode)
  | argument_list (items : List CNode)
  | parenthesized_expression (inner : CNode)

/-- The tree-sitter `type` string of a node. -/
def CNode.nodeType : CNode → String
  | .identifier _ => "identifier"
  | .number_literal _ => "number_literal"
  | .binary_expression _ _ => "binary_expression"
  | .call_expression _ _ => "call_expression"
  | .argument_list _ => "argument_list"
  | .parenthesized_expression _ => "parenthesized_expression"

/-- `CInstrumenter.EXCLUDE_TYPES` (c.py lines 271–279). -/
def EXCLUDE_TYPES : List String :=
  ["declaration", "init_declarator", "function_declarator", "assignment_expression",
   "parameter_declaration", "function_definition", "update_expression"]

mutual

/-- The inner `walk` of `_collect_reads` (c.py lines 352–374).
`parentType` is the tree-sitter type of the node's parent (`none` at
a tree root) and `isCalleeChild` records whether the node is the
`function` child of its `call_expression` parent.  An identifier is
collected only when its parent is not an excluded type, it is not in
callee position, it is not a keyword, and it is in `declared_vars`. -/
def collectReadsWalk (declared : List String) :
    CNode → Option String → Bool → List String
  | CNode.identifier name, parentType, isCalleeChild =>
    let parentOk := match parentType with
      | none => true
      | some t => decide (t ∉ EXCLUDE_TYPES)
    if parentOk then
      if isCalleeChild then []
      else if name ∉ CKEYWORDS ∧ name ∈ declared then [name] else []
    else []
  | CNode.number_literal _, _, _ => []
  | CNode.binary_expression l r, _, _ =>
    collectReadsWalk declared l (some "binary_expression") false
      ++ collectReadsWalk declared r (some "binary_expression") false
  | CNode.call_expression f args, _, _ =>
    collectReadsWalk declared f (some "call_expression") true
      ++ collectReadsWalk declared args (some "call_expression") false
  | CNode.parenthesized_expression inner, _, _ =>
    collectReadsWalk declared inner (some "parenthesized_expression") false
  | CNode.argument_list items, _, _ =>
    collectReadsArgs declared items

/-- The `walk` of `_collect_reads` over the children of an
`argument_list` node. -/
def collectReadsArgs (declared : List String) : List CNode → List String
  | [] => []
  | x :: xs =>
    collectReadsWalk declared x (some "argument_list") false
      ++ collectReadsArgs declared xs

end

/-- `_collect_reads(node)` as invoked by a visitor on a sub-node whose
parent (in the real tree) has type `parentType`. -/
def collect_reads (declared : List String) (node : CNode) (parentType : String) :
    List String :=
  collectReadsWalk declared node (some parentType) false

/-- An `assignment_expression` node as `_visit_assignment_expression`
inspects it: the `left` and `right` fields, the text of its unnamed
operator child, and the 0-based start line. -/
structure AssignNode where
  left : CNode
  opText : String
  right : CNode
  line : Nat

/-- The compound-assignment test of c.py lines 743–749: the operator
token ends in `=` (its last character is `=`) but is not `=` itself. -/
def isCompoundOp (op : String) : Bool :=
  decide (op.data.getLast? = some (Char.ofNat 61)) && decide (op ≠ "=")

/-- The READ trace statement emitted for `read_var` at `line`
(c.py lines 768–780). -/
def cReadTrace (symType : String → String) (read_var : String) (line : Nat) : String :=
  c_make_trace
    [.lit "READ", .lit read_var,
     .expr (type_fmt (symType read_var)) read_var,
     .expr "%p" ("&" ++ read_var),
     .lit (toString (line + 1)), .expr "%d" "__stack_depth"]

/-- The ASSIGN trace statement emitted after the line
(c.py lines 782–794). -/
def cAssignTrace (symType : String → String) (left_var : String) (line : Nat) : String :=
  c_make_trace
    [.lit "ASSIGN", .lit left_var,
     .expr (type_fmt (symType left_var)) left_var,
     .expr "%p" ("&" ++ left_var),
     .lit (toString (line + 1)), .expr "%d" "__stack_depth"]

/-- Embeds `CInstrumenter._visit_assignment_expression`
(c.py lines 731–794).  `symType` is `self.symbol_table.get_type(·,
"int")` and `declared` is `self.declared_vars` at visit time.  Note
that when the right-hand side is a bare identifier the code checks
only the keyword list — not `declared_vars` (c.py lines 756–759) —
and that a compound assignment prepends the left variable with no
check at all (c.py lines 764–765). -/
def visit_assignment_expression (symType : String → String) (declared : List String)
    (node : AssignNode) (p : Plan) : Plan :=
  match node.left with
  | CNode.identifier left_var =>
    let read_vars :=
      match node.right with
      | CNode.identifier name => if name ∉ CKEYWORDS then [name] else []
      | r => collect_reads declared r "assignment_expression"
    let read_vars := if isCompoundOp node.opText then left_var :: read_vars else read_vars
    let p := read_vars.foldl (fun q rv => addBefore q node.line (cReadTrace symType rv node.line)) p
    addAfter p node.line (cAssignTrace symType left_var node.line)
  | _ => p

/-- Embeds `CInstrumenter._visit_call_expression` (c.py lines
829–853).  `funcName` is the text of the `function` child (`none` when
that child is missing); a keyword callee is skipped, and a callee not
in `defined_functions` gets an EXTERNAL_CALL trace scheduled before
its line. -/
def visit_call_expression (defined_functions : List String) (funcName : Option String)
    (line : Nat) (p : Plan) : Plan :=
  match funcName with
  | none => p
  | some func_name =>
    if func_name ∈ CKEYWORDS then p
    else if func_name ∉ defined_functions then
      addBefore p line
        (c_make_trace [.lit "EXTERNAL_CALL", .lit func_name,
                       .lit (toString (line + 1)), .expr "%d" "__stack_depth"])
    else p

/-! ## The Python backend's call visitor (`python.py` lines 723–761) -/

/-- The reserved words of the Python backend (python.py lines 12–49). -/
def PYKEYWORDS : List String :=
  ["print", "return", "if", "elif", "else", "while", "for", "in", "def", "class",
   "import", "from", "as", "with", "try", "except", "finally", "raise", "pass",
   "break", "continue", "and", "or", "not", "is", "None", "True", "False",
   "lambda", "yield", "global", "nonlocal", "assert", "del", "self", "__tracer_depth"]

/-- The `function` child of a Python `call` node, as `_visit_call`
inspects it: a plain identifier, an attribute access (whose
`attribute` field may be missing), or some other node shape. -/
inductive PyCallee where
  | identifier (name : String)
  | attribute (attr : Option String)
  | other
deriving DecidableEq, Repr

/-- The callee-name extraction of `_visit_call` (python.py lines
729–740). -/
def pyFuncName : PyCallee → Option String
  | .identifier name => some name
  | .attribute attr => attr
  | .other => none

/-- `len(line_text) - len(line_text.lstrip())` (python.py line 751). -/
def indentOf (line_text : String) : Nat :=
  line_text.length - (line_text.data.dropWhile Char.isWhitespace).length

/-- Embeds `PythonInstrumenter._visit_call` (python.py lines 723–761);
`lines` is `self.lines`. -/
def visit_call (defined_functions : List String) (lines : List String)
    (callee : PyCallee) (line : Nat) (p : Plan) : Plan :=
  match pyFuncName callee with
  | none => p
  | some func_name =>
    if func_name ∈ PYKEYWORDS then p
    else if func_name ∉ defined_functions then
      let indent := indentOf (lines.getD line "")
      addBefore p line
        (py_make_trace [.lit "EXTERNAL_CALL", .lit func_name,
                        .lit (toString (line + 1)), .expr "" "__tracer_depth"] indent)
    else p

/-! ## Result documents of the pipeline (`src/parser/run.py`) -/

/-- A JSON value as serialized by the pipeline. -/
inductive JValue where
  | s (v : String)
  | n (v : Int)
  | b (v : Bool)
  | arr (items : List JValue)
  | obj (fields : List (String × JValue))
  | null

/-- Embeds `_make_error` (run.py lines 21–27): the failure-case result
document, in dict insertion order. -/
def make_error (stage message : String) (metadata traces : JValue) :
    List (String × JValue) :=
  [("success", JValue.b false),
   ("error", JValue.obj [("stage", JValue.s stage), ("message", JValue.s message)]),
   ("metadata", metadata), ("traces", traces)]

/-- Embeds the success-case result document built by `deal`
(run.py line 149): `{"success": True, "metadata": metadata,
"traces": traces}`. -/
def deal_success_result (metadata traces : JValue) : List (String × JValue) :=
  [("success", JValue.b true), ("metadata", metadata), ("traces", traces)]

/-- The keys of a result document. -/
def docKeys (doc : List (String × JValue)) : List String := doc.map Prod.fst

/-! ## Batch processing (`process_code_files`, src/app/routes.py lines 90–175)

The loop body touches the filesystem (`DATA_DIR`, temp directories)
and invokes the pipeline; these external effects are abstracted into a
`BatchEnv`: `isFile f` is `(DATA_DIR / f).is_file()`, and `runFile f`
is the combined outcome of `deal` plus `json.load` on its output —
`Except.error msg` when any exception escaped the `try` block (caught
by the `except Exception` handler), `Except.ok doc` when a result
document was read back. -/

structure BatchEnv where
  isFile : String → Bool
  runFile : String → Except String (List (String × JValue))

/-- An element of the `errors` list: `{"file", "stage", "message"}`. -/
structure ErrorEntry where
  file : String
  stage : String
  message : String
deriving DecidableEq, Repr

/-- An element of the `results` list: `{"file", "output",
"success": True, "data": result}`. -/
structure SuccessEntry where
  file : String
  output : String
  data : List (String × JValue)

/-- `Path(filename).stem` for the plain filenames accepted by the
security check: the name up to its last dot, when an extension
exists. -/
def pathStem (filename : String) : String :=
  match filename.splitOn "." with
  | [] => filename
  | [_] => filename
  | parts => String.intercalate "." parts.dropLast

/-- Python truthiness of `result.get("success", False)`
(routes.py line 135). -/
def jvTruthy : Option JValue → Bool
  | some (JValue.b v) => v
  | some (JValue.s v) => v ≠ ""
  | some (JValue.n v) => v ≠ 0
  | some (JValue.arr items) => !items.isEmpty
  | some (JValue.obj fields) => !fields.isEmpty
  | some JValue.null => false
  | none => false

/-- `doc.get(key)` on a result document. -/
def docGet (doc : List (String × JValue)) (key : String) : Option JValue :=
  (doc.find? (fun kv => kv.1 = key)).map Prod.snd

/-- `result.get("error", {}).get(key, default)` (routes.py lines
152–153). -/
def errField (doc : List (String × JValue)) (key default : String) : String :=
  match docGet doc "error" with
  | some (JValue.obj e) =>
    match docGet e key with
    | some (JValue.s v) => v
    | _ => default
  | _ => default

/-- The security check of routes.py line 114:
`"/" in filename or "\\" in filename or ".." in filename`. -/
def invalidName (filename : String) : Bool :=
  strContains filename "/" ∨ strContains filename (String.singleton (Char.ofNat 92))
    ∨ strContains filename ".."

/-- One iteration of the `for filename in files` loop (routes.py lines
112–161): the success entry or error entry the file contributes. -/
def processOne (env : BatchEnv) (filename : String) : SuccessEntry ⊕ ErrorEntry :=
  if invalidName filename then
    Sum.inr ⟨filename, "validation", "Invalid filename"⟩
  else if ¬ env.isFile filename then
    Sum.inr ⟨filename, "validation", "File not found"⟩
  else
    match env.runFile filename with
    | Except.error e => Sum.inr ⟨filename, "processing", e⟩
    | Except.ok result =>
      if jvTruthy (docGet result "success") then
        Sum.inl ⟨filename, pathStem filename ++ ".json", result⟩
      else
        Sum.inr ⟨filename, errField result "stage" "unknown", errField result "message" "Unknown error"⟩

/-- The accumulating loop of `process_code_files` (routes.py lines
109–161), carrying the `results` and `errors` lists. -/
def processFilesLoop (env : BatchEnv) :
    List String → List SuccessEntry → List ErrorEntry →
    List SuccessEntry × List ErrorEntry
  | [], results, errors => (results, errors)
  | f :: rest, results, errors =>
    match processOne env f with
    | Sum.inl r => processFilesLoop env rest (results ++ [r]) errors
    | Sum.inr e => processFilesLoop env rest results (errors ++ [e])

/-- The response of `process_code_files` after the loop. -/
inductive BatchResponse where
  | hardFailure (errors : List ErrorEntry)
  | ok (processed : Nat) (results : List SuccessEntry) (errors : Option (List ErrorEntry))

/-- Embeds the response construction of routes.py lines 163–175:
a 400 hard failure when there are errors and no successes, otherwise a
success response with the count, the results, and the errors list (or
`None` when empty). -/
def process_code_files (env : BatchEnv) (files : List String) : BatchResponse :=
  let re := processFilesLoop env files [] []
  if 0 < re.2.length ∧ re.1.length = 0 then
    BatchResponse.hardFailure re.2
  else
    BatchResponse.ok re.1.length re.1 (if re.2 ≠ [] then some re.2 else none)

/-! ## Lemmas about the decoder -/

/-- A META line updates only the metadata (normalize.py lines 243–246). -/
theorem decodeStep_meta (s : DecodeState) (fields : List String)
    (h : fields.headD "" = "META") :
    decodeStep s fields =
      if 3 ≤ fields.length then
        { s with metadata := dictInsert s.metadata (fields.getD 1 "") (fields.getD 2 "") }
      else s := by
  rw [List.headD_eq_head?] at h
  simp [decodeStep, h]

/-- A recognized tag whose constructor succeeds appends one record
carrying the current `trace_id` (normalize.py lines 249–253). -/
theorem decodeStep_ctor_some (s : DecodeState) (fields : List String)
    (ctor : List String → Option Record) (r : Record)
    (hm : fields.headD "" ≠ "META")
    (hsw : switchLookup (fields.headD "") = some ctor)
    (hc : ctor fields.tail = some r) :
    decodeStep s fields =
      { s with traces := s.traces ++ [r ++ [("id", FieldVal.n s.trace_id)]],
               trace_id := s.trace_id + 1 } := by
  rw [List.headD_eq_head?] at hm hsw
  simp [decodeStep, hm, hsw, hc]

/-- A recognized tag whose constructor raises leaves the state
unchanged (normalize.py lines 254–256). -/
theorem decodeStep_ctor_none (s : DecodeState) (fields : List String)
    (ctor : List String → Option Record)
    (hm : fields.headD "" ≠ "META")
    (hsw : switchLookup (fields.headD "") = some ctor)
    (hc : ctor fields.tail = none) :
    decodeStep s fields = s := by
  rw [List.headD_eq_head?] at hm hsw
  simp [decodeStep, hm, hsw, hc]

/-- An unrecognized tag appends one UNKNOWN record carrying all raw
fields and the current `trace_id` (normalize.py lines 257–265). -/
theorem decodeStep_unknown (s : DecodeState) (fields : List String)
    (hm : fields.headD "" ≠ "META")
    (hsw : switchLookup (fields.headD "") = none) :
    decodeStep s fields =
      { s with traces := s.traces ++ [create_type_UNKNOWN fields ++ [("id", FieldVal.n s.trace_id)]],
               trace_id := s.trace_id + 1 } := by
  rw [List.headD_eq_head?] at hm hsw
  simp [decodeStep, hm, hsw]

/-- The `id` appended at the end of a record is what `recId` reads. -/
theorem recId_append (r : Record) (i : Nat) :
    recId (r ++ [("id", FieldVal.n i)]) = some i := by
  simp [recId, List.getLast?_concat]

/-- The decoding-loop invariant: `trace_id` equals the number of
appended records, and the records carry ids `0, 1, 2, …` in order. -/
def IdInv (s : DecodeState) : Prop :=
  s.trace_id = s.traces.length
  ∧ s.traces.map recId = (List.range s.traces.length).map some

theorem decodeStep_IdInv (s : DecodeState) (fields : List String)
    (h : IdInv s) : IdInv (decodeStep s fields) := by
  obtain ⟨h1, h2⟩ := h
  by_cases hm : fields.headD "" = "META"
  · rw [decodeStep_meta s fields hm]
    split <;> exact ⟨h1, h2⟩
  · cases hsw : switchLookup (fields.headD "") with
    | some ctor =>
      cases hc : ctor fields.tail with
      | some r =>
        rw [decodeStep_ctor_some s fields ctor r hm hsw hc]
        refine ⟨by simp [h1], ?_⟩
        simp [List.range_succ, h2, recId_append, h1]
      | none =>
        rw [decodeStep_ctor_none s fields ctor hm hsw hc]
        exact ⟨h1, h2⟩
    | none =>
      rw [decodeStep_unknown s fields hm hsw]
      refine ⟨by simp [h1], ?_⟩
      simp [List.range_succ, h2, recId_append, h1]

theorem decodeLines_IdInv (lines : List (List String)) (s : DecodeState)
    (h : IdInv s) : IdInv (decodeLines s lines) := by
  induction lines generalizing s with
  | nil => exact h
  | cons l rest ih => exact ih (decodeStep s l) (decodeStep_IdInv s l h)

/-- C5: for every raw trace input, the decoded non-META records
(UNKNOWN included) carry ids `0, 1, 2, …`, consecutive in decode
order over the appended trace sequence; a META-tagged line leaves the
trace sequence and the id counter untouched and, when it has at least
two fields after the tag, inserts them as a key/value pair into the
metadata mapping. -/
theorem trace_ids_consecutive_and_meta_excluded :
    (∀ stdin_data : String,
      (stdin_to_json stdin_data).traces.map recId
        = (List.range (stdin_to_json stdin_data).traces.length).map some)
  ∧ (∀ (s : DecodeState) (fields : List String), fields.headD "" = "META" →
      (decodeStep s fields).traces = s.traces
      ∧ (decodeStep s fields).trace_id = s.trace_id
      ∧ (3 ≤ fields.length →
          (decodeStep s fields).metadata
            = dictInsert s.metadata (fields.getD 1 "") (fields.getD 2 ""))) := by
  constructor
  · intro stdin_data
    exact (decodeLines_IdInv _ initState ⟨rfl, rfl⟩).2
  · intro s fields h
    rw [decodeStep_meta s fields h]
    by_cases h3 : 3 ≤ fields.length
    · simp [h3]
    · simp [h3]

/-- Witness for C5 at a concrete META line. -/
theorem trace_ids_consecutive_and_meta_excluded_witness :
    (["META", "lang", "C"].headD "" = "META")
    ∧ (decodeStep initState ["META", "lang", "C"]).traces = initState.traces
    ∧ (decodeStep initState ["META", "lang", "C"]).metadata = [("lang", "C")] := by
  have h := trace_ids_consecutive_and_meta_excluded.2 initState ["META", "lang", "C"] rfl
  exact ⟨rfl, h.1, by rw [h.2.2 (by norm_num)]; rfl⟩

/-- C6: a line whose first field is not a recognized tag (and not
META) yields exactly one UNKNOWN record carrying all raw fields of the
line, the metadata is untouched, and decoding simply continues with
the subsequent lines from the updated state. -/
theorem unknown_tag_preserved :
    ∀ (s : DecodeState) (fields : List String) (rest : List (List String)),
      switchLookup (fields.headD "") = none → fields.headD "" ≠ "META" →
      (decodeStep s fields).traces
        = s.traces ++ [[("type", FieldVal.s "UNKNOWN"), ("args", FieldVal.list fields),
                        ("id", FieldVal.n s.trace_id)]]
      ∧ (decodeStep s fields).metadata = s.metadata
      ∧ decodeLines s (fields :: rest) = decodeLines (decodeStep s fields) rest := by
  intro s fields rest hsw hm
  have h := decodeStep_unknown s fields hm hsw
  exact ⟨by rw [h]; rfl, by rw [h], rfl⟩

/-- Witness for C6 at a concrete unrecognized line. -/
theorem unknown_tag_preserved_witness :
    switchLookup (["FROB", "a", "b"].headD "") = none
    ∧ (["FROB", "a", "b"].headD "") ≠ "META"
    ∧ (decodeStep initState ["FROB", "a", "b"]).traces
        = [[("type", FieldVal.s "UNKNOWN"), ("args", FieldVal.list ["FROB", "a", "b"]),
            ("id", FieldVal.n 0)]] := by
  have h := unknown_tag_preserved initState ["FROB", "a", "b"] [] rfl (by decide)
  exact ⟨rfl, by decide, h.1⟩

/-- C7: when the constructor of a recognized tag raises on a malformed
line, the failure is contained to that line: the state is unchanged
(no record appended, id counter untouched) and decoding of the
subsequent lines proceeds exactly as it would from that state. -/
theorem malformed_line_isolated :
    ∀ (s : DecodeState) (fields : List String) (rest : List (List String))
      (ctor : List String → Option Record),
      switchLookup (fields.headD "") = some ctor → ctor fields.tail = none →
      decodeStep s fields = s
      ∧ decodeLines s (fields :: rest) = decodeLines s rest := by
  intro s fields rest ctor hsw hc
  have hm : fields.headD "" ≠ "META" := by
    intro h
    rw [h] at hsw
    exact Option.noConfusion hsw
  have h := decodeStep_ctor_none s fields ctor hm hsw hc
  refine ⟨h, ?_⟩
  show decodeLines (decodeStep s fields) rest = decodeLines s rest
  rw [h]

/-- Witness for C7 at a concrete malformed ASSIGN line (two fields
instead of five). -/
theorem malformed_line_isolated_witness :
    switchLookup (["ASSIGN", "x", "1"].headD "") = some create_type_ASSIGN
    ∧ create_type_ASSIGN ["ASSIGN", "x", "1"].tail = none
    ∧ decodeStep initState ["ASSIGN", "x", "1"] = initState := by
  have h := malformed_line_isolated initState ["ASSIGN", "x", "1"] [] create_type_ASSIGN rfl rfl
  exact ⟨rfl, rfl, h.1⟩

/-- C10: the decoder is total — every input string yields a
metadata-and-traces structure (every Python raise-site inside the loop
is an arity failure embedded as `none` and handled in place) — and a
META line with fewer than two fields after the tag is silently
ignored, contributing to neither metadata nor traces. -/
theorem decoder_total_and_short_meta_ignored :
    (∀ stdin_data : String, ∃ (md : List (String × String)) (tr : List Record) (n : Nat),
      stdin_to_json stdin_data = ⟨md, tr, n⟩)
  ∧ (∀ (s : DecodeState) (fields : List String),
      fields.headD "" = "META" → fields.length < 3 →
      decodeStep s fields = s) := by
  constructor
  · intro stdin_data
    exact ⟨_, _, _, rfl⟩
  · intro s fields hm h3
    rw [decodeStep_meta s fields hm, if_neg (by omega)]

/-- Witness for C10 at a concrete bare META line. -/
theorem decoder_total_and_short_meta_ignored_witness :
    (["META", "k"].headD "" = "META")
    ∧ (["META", "k"].length < 3)
    ∧ decodeStep initState ["META", "k"] = initState := by
  exact ⟨rfl, by decide,
    decoder_total_and_short_meta_ignored.2 initState ["META", "k"] rfl (by decide)⟩

/-! ## Lemmas about the insertion plan -/

/-- `setdefault(j, []).append(c)` extends exactly the list at key `j`,
at its end. -/
theorem lineMapGet_lineMapAppend (m : LineMap) (j : Nat) (c : String) (i : Nat) :
    lineMapGet (lineMapAppend m j c) i
      = lineMapGet m i ++ (if j = i then [c] else []) := by
  induction m with
  | nil =>
    by_cases h : j = i <;> simp [lineMapAppend, lineMapGet, h]
  | cons kv rest ih =>
    obtain ⟨k, v⟩ := kv
    by_cases hkj : k = j
    · subst hkj
      by_cases hki : k = i
      · subst hki
        simp [lineMapAppend, lineMapGet]
      · simp [lineMapAppend, lineMapGet, hki]
    · by_cases hki : k = i
      · have hji : ¬ j = i := fun h => hkj (hki.trans h.symm)
        have hij : ¬ i = j := fun h => hji h.symm
        simp [lineMapAppend, lineMapGet, hkj, hki, hji, hij]
      · simp [lineMapAppend, lineMapGet, hkj, hki, ih]

/-- Replaying a traversal's scheduling actions produces, at each line,
exactly the `before`-fragments scheduled for that line in scheduling
order, appended to whatever the plan already held. -/
theorem applyEvents_pre (evs : List PlanEvent) (p : Plan) (i : Nat) :
    lineMapGet (applyEvents p evs).pre_insertions i
      = lineMapGet p.pre_insertions i ++ scheduledBefore evs i := by
  induction evs generalizing p with
  | nil => simp [applyEvents, scheduledBefore]
  | cons e rest ih =>
    cases e with
    | before j c =>
      show lineMapGet (applyEvents (addBefore p j c) rest).pre_insertions i = _
      rw [ih (addBefore p j c)]
      by_cases hj : j = i <;>
        simp [addBefore, lineMapGet_lineMapAppend, scheduledBefore, List.filterMap_cons, hj]
    | after j c =>
      show lineMapGet (applyEvents (addAfter p j c) rest).pre_insertions i = _
      rw [ih (addAfter p j c)]
      simp [addAfter, scheduledBefore, List.filterMap_cons]

/-- The `after` counterpart of `applyEvents_pre`. -/
theorem applyEvents_post (evs : List PlanEvent) (p : Plan) (i : Nat) :
    lineMapGet (applyEvents p evs).insertions i
      = lineMapGet p.insertions i ++ scheduledAfter evs i := by
  induction evs generalizing p with
  | nil => simp [applyEvents, scheduledAfter]
  | cons e rest ih =>
    cases e with
    | before j c =>
      show lineMapGet (applyEvents (addBefore p j c) rest).insertions i = _
      rw [ih (addBefore p j c)]
      simp [addBefore, scheduledAfter, List.filterMap_cons]
    | after j c =>
      show lineMapGet (applyEvents (addAfter p j c) rest).insertions i = _
      rw [ih (addAfter p j c)]
      by_cases hj : j = i <;>
        simp [addAfter, lineMapGet_lineMapAppend, scheduledAfter, List.filterMap_cons, hj]

/-- C4: for any traversal (any sequence of `_add_before` /
`_add_after` scheduling actions on an initially empty plan),
`_build_output` emits the header and then the original source lines in
their original order, each preceded by the before-fragments and
followed by the after-fragments scheduled for its line, with
same-line fragments in scheduling order. -/
theorem build_output_interleaves_in_schedule_order
    (header : String) (lines : List String) (evs : List PlanEvent) :
    build_output header lines (applyEvents Plan.empty evs)
      = header :: lines.enum.flatMap
          (fun il => scheduledBefore evs il.1 ++ [il.2] ++ scheduledAfter evs il.1) := by
  have hb : ∀ i, lineMapGet (applyEvents Plan.empty evs).pre_insertions i
      = scheduledBefore evs i := by
    intro i
    rw [applyEvents_pre evs Plan.empty i]
    rfl
  have ha : ∀ i, lineMapGet (applyEvents Plan.empty evs).insertions i
      = scheduledAfter evs i := by
    intro i
    rw [applyEvents_post evs Plan.empty i]
    rfl
  simp [build_output, hb, ha]

/-! ## Claim theorems about the instrumenters -/

/-- C8: in both backends, a call expression whose callee name is not a
reserved word and not in the file-local defined-function set gets
exactly one EXTERNAL_CALL trace — carrying the callee name, the line,
and the depth counter — scheduled before the call's line; a callee in
the defined-function set never produces one. -/
theorem external_call_classification :
    (∀ (defined_functions : List String) (func_name : String) (line : Nat) (p : Plan),
      func_name ∉ CKEYWORDS → func_name ∉ defined_functions →
      visit_call_expression defined_functions (some func_name) line p
        = addBefore p line
            (c_make_trace [.lit "EXTERNAL_CALL", .lit func_name,
                           .lit (toString (line + 1)), .expr "%d" "__stack_depth"]))
  ∧ (∀ (defined_functions : List String) (func_name : String) (line : Nat) (p : Plan),
      func_name ∈ defined_functions →
      visit_call_expression defined_functions (some func_name) line p = p)
  ∧ (∀ (defined_functions lines : List String) (name : String) (line : Nat) (p : Plan),
      name ∉ PYKEYWORDS → name ∉ defined_functions →
      visit_call defined_functions lines (.identifier name) line p
        = addBefore p line
            (py_make_trace [.lit "EXTERNAL_CALL", .lit name,
                            .lit (toString (line + 1)), .expr "" "__tracer_depth"]
                           (indentOf (lines.getD line ""))))
  ∧ (∀ (defined_functions lines : List String) (name : String) (line : Nat) (p : Plan),
      name ∈ defined_functions →
      visit_call defined_functions lines (.identifier name) line p = p) := by
  refine ⟨?_, ?_, ?_, ?_⟩
  · intro dfs fn line p hk hd
    simp [visit_call_expression, hk, hd]
  · intro dfs fn line p hd
    by_cases hk : fn ∈ CKEYWORDS <;> simp [visit_call_expression, hk, hd]
  · intro dfs lines name line p hk hd
    simp [visit_call, pyFuncName, hk, hd]
  · intro dfs lines name line p hd
    by_cases hk : name ∈ PYKEYWORDS <;> simp [visit_call, pyFuncName, hk, hd]

/-- Witness for C8 at concrete callees: `foo` is external, `helper` is
locally defined. -/
theorem external_call_classification_witness :
    ("foo" ∉ CKEYWORDS) ∧ ("foo" ∉ ["helper"]) ∧ ("helper" ∈ ["helper"])
    ∧ visit_call_expression ["helper"] (some "foo") 2 Plan.empty
        = addBefore Plan.empty 2
            (c_make_trace [.lit "EXTERNAL_CALL", .lit "foo",
                           .lit (toString (2 + 1)), .expr "%d" "__stack_depth"])
    ∧ visit_call_expression ["helper"] (some "helper") 2 Plan.empty = Plan.empty
    ∧ ("foo" ∉ PYKEYWORDS)
    ∧ visit_call ["helper"] ["  foo()"] (.identifier "foo") 0 Plan.empty
        = addBefore Plan.empty 0
            (py_make_trace [.lit "EXTERNAL_CALL", .lit "foo",
                            .lit (toString (0 + 1)), .expr "" "__tracer_depth"]
                           (indentOf (["  foo()"].getD 0 "")))
    ∧ visit_call ["helper"] ["  helper()"] (.identifier "helper") 0 Plan.empty = Plan.empty := by
  refine ⟨by decide, by decide, by decide,
    external_call_classification.1 ["helper"] "foo" 2 Plan.empty (by decide) (by decide),
    external_call_classification.2.1 ["helper"] "helper" 2 Plan.empty (by decide),
    by decide,
    external_call_classification.2.2.1 ["helper"] ["  foo()"] "foo" 0 Plan.empty
      (by decide) (by decide),
    external_call_classification.2.2.2 ["helper"] ["  helper()"] "helper" 0 Plan.empty
      (by decide)⟩

/-- C2, evaluated at the failing input: visiting the assignment
`x = y` (line 0) with an empty `declared_vars` set — `y` has not been
declared anywhere earlier in the traversal — still schedules a READ
trace for `y` before the line, because the bare-identifier
right-hand-side path of `_visit_assignment_expression`
(c.py lines 756–759) checks only the keyword list and not
`declared_vars`. -/
theorem undeclared_identifier_read_traced :
    ("y" ∉ ([] : List String))
    ∧ (visit_assignment_expression (fun _ => "int") []
         ⟨CNode.identifier "x", "=", CNode.identifier "y", 0⟩ Plan.empty).pre_insertions
        = [(0, [cReadTrace (fun _ => "int") "y" 0])] := by
  exact ⟨by decide, rfl⟩

mutual

/-- The behaviour C2 describes does hold on the `_collect_reads` path
(used for declaration initializers and non-identifier right-hand
sides): an identifier is collected as a read only if it is already in
`declared_vars` and is not a keyword. -/
theorem collectReadsWalk_mem (declared : List String) (n : CNode) (pt : Option String)
    (b : Bool) (name : String) (h : name ∈ collectReadsWalk declared n pt b) :
    name ∈ declared ∧ name ∉ CKEYWORDS := by
  cases n with
  | identifier s =>
    simp only [collectReadsWalk] at h
    split at h
    · split at h
      · simp at h
      · split at h
        · rename_i hc
          simp at h
          subst h
          exact ⟨hc.2, hc.1⟩
        · simp at h
    · simp at h
  | number_literal t =>
    simp [collectReadsWalk] at h
  | binary_expression l r =>
    simp only [collectReadsWalk] at h
    rcases List.mem_append.mp h with h2 | h2
    · exact collectReadsWalk_mem declared l _ _ name h2
    · exact collectReadsWalk_mem declared r _ _ name h2
  | call_expression f args =>
    simp only [collectReadsWalk] at h
    rcases List.mem_append.mp h with h2 | h2
    · exact collectReadsWalk_mem declared f _ _ name h2
    · exact collectReadsWalk_mem declared args _ _ name h2
  | parenthesized_expression inner =>
    simp only [collectReadsWalk] at h
    exact collectReadsWalk_mem declared inner _ _ name h
  | argument_list items =>
    simp only [collectReadsWalk] at h
    exact collectReadsArgs_mem declared items name h

/-- The list counterpart of `collectReadsWalk_mem`. -/
theorem collectReadsArgs_mem (declared : List String) (l : List CNode) (name : String)
    (h : name ∈ collectReadsArgs declared l) :
    name ∈ declared ∧ name ∉ CKEYWORDS := by
  cases l with
  | nil => simp [collectReadsArgs] at h
  | cons x xs =>
    simp only [collectReadsArgs] at h
    rcases List.mem_append.mp h with h2 | h2
    · exact collectReadsWalk_mem declared x _ _ name h2
    · exact collectReadsArgs_mem declared xs name h2

end

/-! ## Claim theorems about the pipeline result and the batch loop -/

/-- C3, evaluated at the failing point: the success-case result
document that `deal` emits (run.py line 149) has exactly the keys
`success`, `metadata`, `traces` — no `seed` — and the failure-case
documents of `_make_error` carry no `seed` either.  (`fill_json`,
which does add the seed, is only called by the `normalize.py` CLI,
never by `deal`; and `routes.py` calls `deal(..., seed=-1)`, a keyword
argument `deal` does not accept.) -/
theorem deal_result_lacks_seed :
    ∀ metadata traces : JValue,
      docKeys (deal_success_result metadata traces) = ["success", "metadata", "traces"]
      ∧ "seed" ∉ docKeys (deal_success_result metadata traces)
      ∧ ∀ stage message : String,
          "seed" ∉ docKeys (make_error stage message metadata traces) := by
  intro md tr
  refine ⟨rfl, by simp [docKeys, deal_success_result], ?_⟩
  intro stage message
  simp [docKeys, make_error]

/-- The per-file characterization of the batch loop: each file
contributes exactly one entry, computed from that file alone, so a
failure on one file never affects the processing of the others and
the loop never aborts early. -/
theorem processFilesLoop_eq_filterMap (env : BatchEnv) :
    ∀ (files : List String) (rs : List SuccessEntry) (es : List ErrorEntry),
      processFilesLoop env files rs es
        = (rs ++ files.filterMap (fun f => (processOne env f).getLeft?),
           es ++ files.filterMap (fun f => (processOne env f).getRight?)) := by
  intro files
  induction files with
  | nil => intro rs es; simp [processFilesLoop]
  | cons f rest ih =>
    intro rs es
    cases hf : processOne env f with
    | inl r =>
      simp only [processFilesLoop, hf]
      rw [ih (rs ++ [r]) es]
      simp [hf, List.filterMap_cons]
    | inr e =>
      simp only [processFilesLoop, hf]
      rw [ih rs (es ++ [e])]
      simp [hf, List.filterMap_cons]

/-- C9: batch processing is sequential and independent — the results
and errors lists are obtained file by file, each entry a function of
its own file only; a missing or invalid filename contributes a
`validation` error and processing continues; and the response
distinguishes the hard-failure case (errors and no successes, HTTP
400) from partial success (some successes, with both the results list
and the errors list returned, the latter `None` when empty). -/
theorem batch_sequential_independent_with_validation :
    (∀ (env : BatchEnv) (files : List String),
      processFilesLoop env files [] []
        = (files.filterMap (fun f => (processOne env f).getLeft?),
           files.filterMap (fun f => (processOne env f).getRight?)))
  ∧ (∀ (env : BatchEnv) (f : String), invalidName f = true →
      processOne env f = Sum.inr ⟨f, "validation", "Invalid filename"⟩)
  ∧ (∀ (env : BatchEnv) (f : String), invalidName f = false → env.isFile f = false →
      processOne env f = Sum.inr ⟨f, "validation", "File not found"⟩)
  ∧ (∀ (env : BatchEnv) (files : List String),
      0 < (processFilesLoop env files [] []).2.length →
      (processFilesLoop env files [] []).1.length = 0 →
      process_code_files env files
        = BatchResponse.hardFailure (processFilesLoop env files [] []).2)
  ∧ (∀ (env : BatchEnv) (files : List String),
      0 < (processFilesLoop env files [] []).1.length →
      process_code_files env files
        = BatchResponse.ok (processFilesLoop env files [] []).1.length
            (processFilesLoop env files [] []).1
            (if (processFilesLoop env files [] []).2 ≠ [] then
              some (processFilesLoop env files [] []).2
            else none)) := by
  refine ⟨?_, ?_, ?_, ?_, ?_⟩
  · intro env files
    rw [processFilesLoop_eq_filterMap env files [] []]
    simp
  · intro env f h
    simp [processOne, h]
  · intro env f h1 h2
    simp [processOne, h1, h2]
  · intro env files h1 h2
    simp only [process_code_files]
    rw [if_pos ⟨h1, h2⟩]
  · intro env files h1
    simp only [process_code_files]
    rw [if_neg (fun hc => by omega)]

/-- Witness for C9: three files where the first succeeds, the second
has an invalid name, and the third is missing — two validation-style
checks fire, the loop continues past them, and the batch response is
the partial-success one. -/
theorem batch_sequential_independent_with_validation_witness :
    invalidName "bad/name" = true
    ∧ invalidName "missing.c" = false
    ∧ processOne ⟨fun f => f = "a.c", fun _ => Except.ok [("success", JValue.b true)]⟩ "bad/name"
        = Sum.inr ⟨"bad/name", "validation", "Invalid filename"⟩
    ∧ processOne ⟨fun f => f = "a.c", fun _ => Except.ok [("success", JValue.b true)]⟩ "missing.c"
        = Sum.inr ⟨"missing.c", "validation", "File not found"⟩
    ∧ 0 < (processFilesLoop ⟨fun f => f = "a.c", fun _ => Except.ok [("success", JValue.b true)]⟩
            ["a.c", "bad/name", "missing.c"] [] []).1.length
    ∧ process_code_files ⟨fun f => f = "a.c", fun _ => Except.ok [("success", JValue.b true)]⟩
        ["a.c", "bad/name", "missing.c"]
        = BatchResponse.ok
            (processFilesLoop ⟨fun f => f = "a.c", fun _ => Except.ok [("success", JValue.b true)]⟩
              ["a.c", "bad/name", "missing.c"] [] []).1.length
            (processFilesLoop ⟨fun f => f = "a.c", fun _ => Except.ok [("success", JValue.b true)]⟩
              ["a.c", "bad/name", "missing.c"] [] []).1
            (if (processFilesLoop ⟨fun f => f = "a.c", fun _ => Except.ok [("success", JValue.b true)]⟩
                  ["a.c", "bad/name", "missing.c"] [] []).2 ≠ [] then
              some (processFilesLoop ⟨fun f => f = "a.c", fun _ => Except.ok [("success", JValue.b true)]⟩
                     ["a.c", "bad/name", "missing.c"] [] []).2
            else none) := by
  refine ⟨by decide, by decide,
    batch_sequential_independent_with_validation.2.1 _ "bad/name" (by decide),
    batch_sequential_independent_with_validation.2.2.1 _ "missing.c" (by decide) (by decide),
    ?_, ?_⟩
  · show 0 < (1 : Nat)
    decide
  · exact batch_sequential_independent_with_validation.2.2.2.2 _ _ (by show 0 < (1 : Nat); decide)

/-! ## Lemmas about the seed generator -/

theorem chunkVal_foldl (l : List Nat) (a : Nat) :
    l.foldl (fun x d => 10 * x + d) a = a * 10 ^ l.length + chunkVal l := by
  induction l generalizing a with
  | nil => simp [chunkVal]
  | cons d t ih =>
    have h1 : List.foldl (fun x k => 10 * x + k) a (d :: t)
        = (10 * a + d) * 10 ^ t.length + chunkVal t := by
      rw [List.foldl_cons, ih (10 * a + d)]
    have h2 : chunkVal (d :: t) = d * 10 ^ t.length + chunkVal t := by
      show List.foldl (fun x k => 10 * x + k) (10 * 0 + d) t = _
      rw [ih (10 * 0 + d)]
      ring
    rw [h1, h2, List.length_cons]
    ring

theorem chunkVal_cons (d : Nat) (t : List Nat) :
    chunkVal (d :: t) = d * 10 ^ t.length + chunkVal t := by
  show List.foldl (fun x k => 10 * x + k) (10 * 0 + d) t = _
  rw [chunkVal_foldl]
  ring

theorem chunkVal_append (l1 l2 : List Nat) :
    chunkVal (l1 ++ l2) = chunkVal l1 * 10 ^ l2.length + chunkVal l2 := by
  show List.foldl _ 0 (l1 ++ l2) = _
  rw [List.foldl_append]
  exact chunkVal_foldl l2 (chunkVal l1)

theorem chunkVal_lt (l : List Nat) (h : ∀ d ∈ l, d < 10) :
    chunkVal l < 10 ^ l.length := by
  induction l with
  | nil => simp [chunkVal]
  | cons d t ih =>
    have hd : d < 10 := h d (List.mem_cons_self d t)
    have ht : chunkVal t < 10 ^ t.length :=
      ih (fun x hx => h x (List.mem_cons_of_mem d hx))
    rw [chunkVal_cons, List.length_cons, pow_succ]
    calc d * 10 ^ t.length + chunkVal t
        < d * 10 ^ t.length + 10 ^ t.length := by omega
      _ = (d + 1) * 10 ^ t.length := by ring
      _ ≤ 10 * 10 ^ t.length := Nat.mul_le_mul_right _ (by omega)
      _ = 10 ^ t.length * 10 := by ring

theorem chunkVal_reverse (l : List Nat) :
    chunkVal l.reverse = Nat.ofDigits 10 l := by
  induction l with
  | nil => simp [chunkVal, Nat.ofDigits]
  | cons d t ih =>
    rw [List.reverse_cons, chunkVal_append, ih, Nat.ofDigits_cons]
    have hd : chunkVal [d] = d := by simp [chunkVal]
    simp [hd]
    ring

theorem chunkVal_decRepr (n : Nat) : chunkVal (decRepr n) = n := by
  by_cases h : n = 0
  · subst h
    rfl
  · rw [decRepr, if_neg h, chunkVal_reverse, Nat.ofDigits_digits]

theorem decRepr_digit_lt (n : Nat) : ∀ d ∈ decRepr n, d < 10 := by
  intro d hd
  rw [decRepr] at hd
  by_cases h : n = 0
  · rw [if_pos h] at hd
    simp at hd
    omega
  · rw [if_neg h] at hd
    exact Nat.digits_lt_base (by norm_num) (List.mem_reverse.mp hd)

theorem seedLen_pos (n : Nat) : 1 ≤ seedLen n := by
  rw [seedLen, decRepr]
  by_cases h : n = 0
  · simp [h]
  · rw [if_neg h]
    simpa using List.length_pos.mpr (Nat.digits_ne_nil_iff_ne_zero.mpr h)

theorem seedLen_log (n : Nat) (h : n ≠ 0) : seedLen n = Nat.log 10 n + 1 := by
  rw [seedLen, decRepr, if_neg h, List.length_reverse, Nat.digits_len 10 n (by norm_num) h]

theorem lt_pow_seedLen (n : Nat) : n < 10 ^ seedLen n := by
  by_cases h : n = 0
  · subst h
    show 0 < 10 ^ seedLen 0
    positivity
  · rw [seedLen_log n h]
    exact Nat.lt_pow_succ_log_self (by norm_num) n

theorem pow_seedLen_le (n : Nat) (h : n ≠ 0) : 10 ^ (seedLen n - 1) ≤ n := by
  rw [seedLen_log n h, Nat.add_sub_cancel]
  exact Nat.pow_log_le_self 10 h

theorem seedLen_eq (n k : Nat) (h1 : 10 ^ k ≤ n) (h2 : n < 10 ^ (k + 1)) :
    seedLen n = k + 1 := by
  have hn : n ≠ 0 := by
    have : 1 ≤ 10 ^ k := Nat.one_le_pow k 10 (by norm_num)
    omega
  rw [seedLen_log n hn, Nat.log_eq_of_pow_le_of_lt_pow h1 h2]

theorem chunkVal_take (n k : Nat) :
    chunkVal ((decRepr n).take k) = n / 10 ^ (seedLen n - k) := by
  set L := seedLen n with hL
  have hlen : ((decRepr n).drop k).length = L - k := by
    rw [List.length_drop]
    rfl
  have hval : n = chunkVal ((decRepr n).take k) * 10 ^ (L - k)
      + chunkVal ((decRepr n).drop k) := by
    conv_lhs => rw [← chunkVal_decRepr n, ← List.take_append_drop k (decRepr n)]
    rw [chunkVal_append, hlen]
  have hr : chunkVal ((decRepr n).drop k) < 10 ^ (L - k) := by
    rw [← hlen]
    exact chunkVal_lt _ (fun d hd => decRepr_digit_lt n d (List.drop_subset k (decRepr n) hd))
  have hmpos : 0 < 10 ^ (L - k) := Nat.pow_pos (by norm_num)
  conv_rhs => rw [hval]
  rw [Nat.mul_comm (chunkVal ((decRepr n).take k)) (10 ^ (L - k)),
    Nat.mul_add_div hmpos, Nat.div_eq_of_lt hr, Nat.add_zero]

theorem seedLen_trunc (n : Nat) (h : 20 < seedLen n) :
    seedLen (chunkVal ((decRepr n).take 20)) = 20 := by
  have hn : n ≠ 0 := by
    intro h0
    rw [h0] at h
    have : seedLen 0 = 1 := rfl
    omega
  rw [chunkVal_take n 20]
  have hL1 : 10 ^ (seedLen n - 1) ≤ n := pow_seedLen_le n hn
  have hL2 : n < 10 ^ seedLen n := lt_pow_seedLen n
  have hlow : 10 ^ 19 ≤ n / 10 ^ (seedLen n - 20) := by
    have hdiv : 10 ^ (seedLen n - 1) / 10 ^ (seedLen n - 20) = 10 ^ 19 := by
      rw [Nat.pow_div (by omega) (by norm_num)]
      congr 1
      omega
    rw [← hdiv]
    exact Nat.div_le_div_right hL1
  have hhigh : n / 10 ^ (seedLen n - 20) < 10 ^ 20 := by
    rw [Nat.div_lt_iff_lt_mul (Nat.pow_pos (by norm_num))]
    calc n < 10 ^ seedLen n := hL2
      _ = 10 ^ 20 * 10 ^ (seedLen n - 20) := by
          rw [← pow_add]
          congr 1
          omega
  have h19 := seedLen_eq (n / 10 ^ (seedLen n - 20)) 19 hlow hhigh
  omega

theorem seedLen_pad (r d : Nat) (hr : r ≠ 0) (hd : d < 10) (h : seedLen r < 19) :
    seedLen (chunkVal (ljustDigits (decRepr r) 19 d)) = 19 := by
  have hlen : (decRepr r).length = seedLen r := rfl
  have hrep : (List.replicate (19 - seedLen r) d).length = 19 - seedLen r := by
    simp
  have hsplit : chunkVal (ljustDigits (decRepr r) 19 d)
      = r * 10 ^ (19 - seedLen r) + chunkVal (List.replicate (19 - seedLen r) d) := by
    rw [ljustDigits, hlen, chunkVal_append, hrep, chunkVal_decRepr]
  have hrlt : chunkVal (List.replicate (19 - seedLen r) d) < 10 ^ (19 - seedLen r) := by
    have hb := chunkVal_lt (List.replicate (19 - seedLen r) d)
      (fun x hx => by rw [List.eq_of_mem_replicate hx]; exact hd)
    rwa [hrep] at hb
  have h1 : 10 ^ (seedLen r - 1) ≤ r := pow_seedLen_le r hr
  have h2 : r < 10 ^ seedLen r := lt_pow_seedLen r
  have hpos : 1 ≤ seedLen r := seedLen_pos r
  have hlow : 10 ^ 18 ≤ chunkVal (ljustDigits (decRepr r) 19 d) := by
    rw [hsplit]
    calc 10 ^ 18 = 10 ^ (seedLen r - 1) * 10 ^ (19 - seedLen r) := by
          rw [← pow_add]
          congr 1
          omega
      _ ≤ r * 10 ^ (19 - seedLen r) := Nat.mul_le_mul_right (10 ^ (19 - seedLen r)) h1
      _ ≤ r * 10 ^ (19 - seedLen r) + chunkVal (List.replicate (19 - seedLen r) d) :=
          Nat.le_add_right _ _
  have hhigh : chunkVal (ljustDigits (decRepr r) 19 d) < 10 ^ 19 := by
    rw [hsplit]
    calc r * 10 ^ (19 - seedLen r) + chunkVal (List.replicate (19 - seedLen r) d)
        < r * 10 ^ (19 - seedLen r) + 10 ^ (19 - seedLen r) := by omega
      _ = (r + 1) * 10 ^ (19 - seedLen r) := by ring
      _ ≤ 10 ^ seedLen r * 10 ^ (19 - seedLen r) :=
          Nat.mul_le_mul_right (10 ^ (19 - seedLen r)) (by omega)
      _ = 10 ^ 19 := by
          rw [← pow_add]
          congr 1
          omega
  have h18 := seedLen_eq (chunkVal (ljustDigits (decRepr r) 19 d)) 18 hlow hhigh
  omega

/-- C1, as amended: the embedded `generate_seed` is a pure function of
the SHA-256 digest and the deterministically seeded pad digit — so
identical metadata always yields the identical seed — and whenever the
XOR fold of the digest's 20-digit decimal chunks is nonzero, the
result has 19 or 20 decimal digits. -/
theorem generate_seed_deterministic_and_19_20_digits (hashInt padDigit : Nat)
    (hd : padDigit < 10) (hx : chunkXor hashInt ≠ 0) :
    generate_seed hashInt padDigit = generate_seed hashInt padDigit
    ∧ 19 ≤ seedLen (generate_seed hashInt padDigit)
    ∧ seedLen (generate_seed hashInt padDigit) ≤ 20 := by
  refine ⟨rfl, ?_⟩
  simp only [generate_seed]
  by_cases hb : 20 < seedLen (chunkXor hashInt)
  · rw [if_pos hb]
    have ht := seedLen_trunc (chunkXor hashInt) hb
    rw [if_neg (by omega)]
    omega
  · rw [if_neg hb]
    by_cases h19 : seedLen (chunkXor hashInt) < 19
    · rw [if_pos h19]
      have hp := seedLen_pad (chunkXor hashInt) padDigit hx hd h19
      omega
    · rw [if_neg h19]
      have := seedLen_pos (chunkXor hashInt)
      omega

/-- C1 counterexample: at a digest whose chunk XOR fold is zero (the
digest 0 is the simplest such value), the padded result keeps its
leading zero, so the claimed 19–20 digit bound fails — the result has
a single digit. -/
theorem seed_digit_count_counterexample :
    chunkXor 0 = 0 ∧ generate_seed 0 0 = 0
    ∧ ¬ (19 ≤ seedLen (generate_seed 0 0) ∧ seedLen (generate_seed 0 0) ≤ 20) := by
  refine ⟨by decide, by decide, ?_⟩
  intro hcontra
  have h1 : seedLen (generate_seed 0 0) = 1 := by decide
  omega

/-- Witness for C1 at the digest 7 with pad digit 0. -/
theorem generate_seed_deterministic_and_19_20_digits_witness :
    (0 : Nat) < 10 ∧ chunkXor 7 ≠ 0
    ∧ (generate_seed 7 0 = generate_seed 7 0
       ∧ 19 ≤ seedLen (generate_seed 7 0) ∧ seedLen (generate_seed 7 0) ≤ 20) := by
  have h7 : Nat.digits 10 7 = [7] := Nat.digits_of_lt 10 7 (by norm_num) (by norm_num)
  have hdr : decRepr 7 = [7] := by
    rw [decRepr, if_neg (by norm_num), h7]
    rfl
  have hx : chunkXor 7 = 7 := by
    unfold chunkXor
    rw [hdr]
    decide
  exact ⟨by norm_num, by omega,
    generate_seed_deterministic_and_19_20_digits 7 0 (by norm_num) (by omega)⟩

end Spiral
